import Mathlib

/-!
Shallow embedding of the authentication and rate-limiting core of the
go-api-mono repository, together with theorems settling the frozen claims.

Conventions of the embedding:
* Go float64 quantities (token bucket rates, capacities, token counts) and
  wall-clock instants (seconds) are embedded as rationals; all values the
  claims exercise are small integers, on which float64 arithmetic is exact.
* A JWT compact serialization is embedded symbolically: an HMAC signature is
  the triple of the signing key, the algorithm and the signed claims, and a
  signature check is equality of triples (collision-freeness of HMAC).
  Base64url decoding is a bijection on well formed serializations, so the
  wire is either a well formed token or an opaque malformed string.  A
  compact serialization begins with a base64url character, never with the
  configured token marker followed by a space, so stripTokenPrefix of
  auth/jwt.go is the identity on the outputs of GenerateToken.
* time.Now() is made explicit: every operation that reads the clock takes
  the current instant as an extra argument.
-/

/-- Identity of the predefined package-level error values of the
repository's errors package (pkg/errors/errors.go).  Each is a distinct
heap allocation, so Go pointer equality on them is identity of the
constructor. -/
inductive AppSentinel where
  | unauthorized
  | invalidToken
  | tokenExpired
  | invalidSignature
  | tooManyRequests
  | internalErr
deriving DecidableEq, Repr

/-- Identity of the sentinel error values exported by the golang-jwt/v5
library (jwt.ErrTokenExpired, jwt.ErrTokenNotValidYet). -/
inductive LibSentinel where
  | tokenExpired
  | tokenNotValidYet
deriving DecidableEq, Repr

/-- Error values produced by golang-jwt/v5 ParseWithClaims.  The library
never returns a bare sentinel: every failure is a freshly allocated error
that wraps the relevant sentinels (via fmt.Errorf with the w verb), so no
returned value is pointer-equal to a sentinel, and none of them is a value
of the repository's own *errors.Error type. -/
inductive LibError where
  /-- Structurally invalid compact serialization (ErrTokenMalformed). -/
  | malformedToken
  /-- The keyfunc supplied by ParseToken returned an error; the library
  wraps it under ErrTokenUnverifiable.  The inner value is the
  repository's errors.ErrInvalidSignature sentinel. -/
  | keyfuncFailed (inner : AppSentinel)
  /-- HMAC verification failed (ErrTokenSignatureInvalid). -/
  | signatureInvalid
  /-- Registered-claims validation failed (ErrTokenInvalidClaims); the
  wrapped list records which time checks failed, in validator order. -/
  | invalidClaims (errs : List LibSentinel)
deriving DecidableEq, Repr

/-- A Go error value as it flows through the code under verification.
appSentinel s is one of the predefined package-level *errors.Error values
(cause nil); appNew is a fresh *errors.Error built by errors.New (cause
nil); fmtWrapped is a fresh error built by fmt.Errorf with the w verb (not
an *errors.Error); libSentinel and lib are values from the jwt library. -/
inductive GoError where
  | appSentinel (s : AppSentinel)
  | appNew (code : Nat) (msg : String)
  | fmtWrapped (msg : String) (cause : GoError)
  | libSentinel (s : LibSentinel)
  | lib (e : LibError)
deriving DecidableEq, Repr

/-- The custom Is of pkg/errors/errors.go: pointer equality, then, when the
first argument is an *errors.Error, recursion on its cause.  The errors
compared in the code under verification are sentinels (cause nil), fresh
errors.New values (cause nil, pointer-distinct from every target), fresh
fmt.Errorf wrappers and fresh jwt library errors (neither is an
*errors.Error, so the cause recursion does not apply and pointer equality
fails); hence Is holds exactly on identical sentinels. -/
def errorsIs (err target : GoError) : Bool :=
  match err, target with
  | .appSentinel s, .appSentinel t => decide (s = t)
  | .libSentinel s, .libSentinel t => decide (s = t)
  | _, _ => false

/-- The claim set carried by a token: Claims of auth/jwt.go
(UserID, Username, Role plus the registered time claims).  Instants are
integer unix seconds, as in the NumericDate values of the library. -/
structure ClaimsData where
  userID : Nat
  username : String
  role : String
  expiresAt : Int
  issuedAt : Int
  notBefore : Int
deriving DecidableEq, Repr

/-- Symbolic HMAC signature over header and claims: determined by the
signing key, the algorithm name of the header, and the signed claims. -/
structure Signature where
  key : String
  alg : String
  signedClaims : ClaimsData
deriving DecidableEq, Repr

/-- A structurally well formed compact-serialized token: header algorithm,
claims, and the detached signature segment. -/
structure SignedToken where
  alg : String
  claims : ClaimsData
  sig : Signature
deriving DecidableEq, Repr

/-- A token string on the wire: either the compact serialization of a well
formed token, or a string the base64url segment decoder rejects. -/
inductive TokenWire where
  | wellFormed (t : SignedToken)
  | malformed (s : String)
deriving DecidableEq, Repr

/-- The Config structure of auth/jwt.go restricted to the fields the token
operations read (the three context-key fields only name lookup keys).
The signing method is assumed to be registered with the library (the HMAC
family HS256/HS384/HS512 per the spec), so that signing succeeds. -/
structure JWTConfig where
  signingKey : String
  expirationTime : Int
  signingMethod : String
  tokenMarker : String
deriving DecidableEq, Repr

/-- HMAC signing: token.SignedString with the configured key. -/
def signWith (cfg : JWTConfig) (alg : String) (c : ClaimsData) : Signature :=
  ⟨cfg.signingKey, alg, c⟩

/-- GenerateToken of auth/jwt.go: claims with IssuedAt = NotBefore = now
and ExpiresAt = now + ExpirationTime, signed with the configured method
and key.  Signing a byte-string key with a registered HMAC method cannot
fail, so the result is total. -/
def GenerateToken (cfg : JWTConfig) (userID : Nat) (username role : String)
    (now : Int) : SignedToken :=
  let claims : ClaimsData :=
    { userID := userID, username := username, role := role
      expiresAt := now + cfg.expirationTime
      issuedAt := now, notBefore := now }
  { alg := cfg.signingMethod, claims := claims
    sig := signWith cfg cfg.signingMethod claims }

/-- golang-jwt/v5 ParseWithClaims together with the keyfunc that ParseToken
of auth/jwt.go passes to it.  Order of checks in the library: run the
keyfunc (the repository's keyfunc rejects a header algorithm different
from the configured one with errors.ErrInvalidSignature); verify the
signature with the returned key; validate the registered claims, where a
token is unexpired iff now is strictly before ExpiresAt and valid iff now
is not strictly before NotBefore. -/
def parseWithClaims (cfg : JWTConfig) (t : SignedToken) (now : Int) :
    Except LibError ClaimsData :=
  if t.alg ≠ cfg.signingMethod then
    .error (.keyfuncFailed .invalidSignature)
  else if t.sig ≠ signWith cfg t.alg t.claims then
    .error .signatureInvalid
  else
    let errs := (if now < t.claims.expiresAt then [] else [LibSentinel.tokenExpired])
      ++ (if t.claims.notBefore ≤ now then [] else [LibSentinel.tokenNotValidYet])
    if errs.isEmpty then .ok t.claims else .error (.invalidClaims errs)

/-- The library-level outcome of parsing a wire string: a malformed string
fails segment decoding before any further check. -/
def libParseToken (cfg : JWTConfig) (w : TokenWire) (now : Int) :
    Except LibError ClaimsData :=
  match w with
  | .malformed _ => .error .malformedToken
  | .wellFormed t => parseWithClaims cfg t now

/-- The numeric value of ErrCodeInvalidToken in pkg/errors/errors.go: the
iota counter runs through the whole const block, so the third group starts
at iota = 13, giving 213. -/
def ErrCodeInvalidToken : Nat := 213

/-- The error-classification switch of ParseToken in auth/jwt.go, applied
to the error returned by the library.  It tests the library error with the
custom errorsIs against the library sentinels; since the library only
returns wrapped fresh errors, both tests are False and every library
failure falls to the default branch errors.ErrInvalidToken. -/
def classifyParseErr (e : LibError) : GoError :=
  if errorsIs (.lib e) (.libSentinel .tokenExpired) then
    .appSentinel .tokenExpired
  else if errorsIs (.lib e) (.libSentinel .tokenNotValidYet) then
    .appNew ErrCodeInvalidToken "token not valid yet"
  else
    .appSentinel .invalidToken

/-- ParseToken of auth/jwt.go on a wire token (the marker strip is the
identity on compact serializations; see the module comment).  On library
failure the switch classifies the error; on success the token is valid and
the decoded claims are returned. -/
def ParseToken (cfg : JWTConfig) (w : TokenWire) (now : Int) :
    Except GoError ClaimsData :=
  match libParseToken cfg w now with
  | .error e => .error (classifyParseErr e)
  | .ok c => .ok c

/-- Outcome of RefreshToken: a new signed token, an error, or the runtime
nil-dereference fault that the Go code reaches when ParseToken returned a
nil claims pointer together with the expired sentinel. -/
inductive RefreshResult where
  | ok (t : SignedToken)
  | err (e : GoError)
  | nilPanic
deriving DecidableEq, Repr

/-- RefreshToken of auth/jwt.go.  It parses the incoming token; on error it
refuses unless the error Is errors.ErrTokenExpired; it then rewrites the
three time claims to now-relative values on the claims pointer returned by
ParseToken and re-signs.  On the expired path ParseToken returned a nil
claims pointer, so the rewrite dereferences nil: that branch is the
nilPanic outcome. -/
def RefreshToken (cfg : JWTConfig) (w : TokenWire) (now : Int) : RefreshResult :=
  match ParseToken cfg w now with
  | .error e =>
    if ¬ (errorsIs e (.appSentinel .tokenExpired)) then
      .err (.fmtWrapped "failed to parse token for refresh" e)
    else
      .nilPanic
  | .ok claims =>
    let c := { claims with
      expiresAt := now + cfg.expirationTime
      issuedAt := now, notBefore := now }
    .ok { alg := cfg.signingMethod, claims := c
          sig := signWith cfg cfg.signingMethod c }

/-- The TokenBucket structure of the security package: refill rate in
tokens per second, burst capacity, current token balance, and the instant
of the last refill.  Go float64 fields are embedded as rationals. -/
structure TokenBucket where
  rate : ℚ
  capacity : ℚ
  tokens : ℚ
  lastUpdate : ℚ
deriving DecidableEq, Repr

/-- NewTokenBucket of the security package: the bucket starts full
(tokens = capacity) with lastUpdate = now.  The constructor performs no
validation of its parameters. -/
def NewTokenBucket (rate capacity now : ℚ) : TokenBucket :=
  { rate := rate, capacity := capacity, tokens := capacity, lastUpdate := now }

/-- Allow of the security package: refill by elapsed seconds times the
rate, clamp at capacity, stamp lastUpdate, then admit and decrement when
the balance is at least 1. -/
def TokenBucket.Allow (tb : TokenBucket) (now : ℚ) : Bool × TokenBucket :=
  let toks := min tb.capacity (tb.tokens + (now - tb.lastUpdate) * tb.rate)
  if 1 ≤ toks then
    (true, { tb with tokens := toks - 1, lastUpdate := now })
  else
    (false, { tb with tokens := toks, lastUpdate := now })

/-- The refill formula stated by the spec:
current_tokens = min(capacity, current_tokens + elapsed * refill_rate). -/
def specRefill (tb : TokenBucket) (now : ℚ) : ℚ :=
  min tb.capacity (tb.tokens + (now - tb.lastUpdate) * tb.rate)

/-- The IPRateLimiter structure of the security package, restricted to its
configuration fields; the limiters map is mutable shared state and lives
in the pipeline state below. -/
structure IPRateLimiter where
  rate : ℚ
  capacity : ℚ
deriving DecidableEq, Repr

/-- NewIPRateLimiter of the security package: records the two parameters,
performs no validation, and starts with an empty limiters map. -/
def NewIPRateLimiter (rate capacity : ℚ) : IPRateLimiter :=
  { rate := rate, capacity := capacity }

/-- The registry of per-key buckets (the limiters sync.Map), as an
association list in insertion order. -/
abbrev Registry := List (String × TokenBucket)

/-- Load on the limiters map. -/
def lookupBucket (key : String) : Registry → Option TokenBucket
  | [] => none
  | (k, b) :: rest => if k = key then some b else lookupBucket key rest

/-- Store of an updated bucket under its key (append when absent). -/
def storeBucket (key : String) (b : TokenBucket) : Registry → Registry
  | [] => [(key, b)]
  | (k, b0) :: rest =>
    if k = key then (k, b) :: rest else (k, b0) :: storeBucket key b rest

/-- GetLimiter of the security package followed by Allow on the returned
bucket: load the bucket for the key, lazily creating and storing a fresh
full bucket when absent, then run Allow, whose mutation of the shared
bucket is the store of the updated bucket. -/
def getLimiterAllow (rl : IPRateLimiter) (key : String) (now : ℚ)
    (reg : Registry) : Bool × Registry :=
  let bucket := match lookupBucket key reg with
    | some b => b
    | none => NewTokenBucket rl.rate rl.capacity now
  let res := bucket.Allow now
  (res.1, storeBucket key res.2 reg)

/-- The Authorization header of an inbound request, relative to the
configured token marker (default Bearer): absent (Header.Get returns the
empty string), present but not of the form marker-space-rest, or
marker-space followed by a token string. -/
inductive AuthHeader where
  | missing
  | noMarker (s : String)
  | withMarker (rest : TokenWire)
deriving DecidableEq, Repr

/-- An inbound HTTP request restricted to the data the modelled middleware
read: URL path, Authorization header, the three client-address sources,
the processing instant (time.Now during this request), and the claims
value the authentication middleware injects into the request context. -/
structure Request where
  path : String
  authHeader : AuthHeader
  xRealIP : String
  xForwardedFor : String
  remoteAddr : String
  now : Int
  ctxClaims : Option ClaimsData

/-- The mutable state a handler chain acts on: the sequence of response
writes performed so far (status code and body, in order), and the rate
limiter registry shared by all requests. -/
structure MWState where
  writes : List (Nat × String)
  registry : Registry

/-- A handler: HandlerFunc of the middleware package, as a state
transformer over the modelled response and registry state. -/
abbrev HandlerFunc := Request → MWState → MWState

/-- Middleware of the middleware package: a handler transformer. -/
abbrev Middleware := HandlerFunc → HandlerFunc

/-- http.Error: one terminal write of a status code and a body. -/
def httpError (s : MWState) (status : Nat) (msg : String) : MWState :=
  { s with writes := s.writes ++ [(status, msg)] }

/-- Chain of the middleware package: the loop walks the list from the last
element down to the first, wrapping the handler, so the first-listed
middleware is outermost. -/
def Chain (ms : List Middleware) : Middleware :=
  fun next => ms.foldr (fun m acc => m acc) next

/-- Character-list core of strings.HasPrefix: p is an initial segment of
s.  On UTF-8 text a character-level initial segment coincides with the
byte-level one Go compares. -/
def listIsPfx : List Char → List Char → Bool
  | [], _ => true
  | _, [] => false
  | c :: cs, d :: ds => c = d && listIsPfx cs ds

/-- strings.HasPrefix of the Go standard library. -/
def goHasPrefix (s p : String) : Bool := listIsPfx p.toList s.toList

/-- JWTOptions of middleware/jwt.go restricted to the fields its handler
reads (the two context-key fields only name lookup keys). -/
structure JWTOptions where
  tokenMarker : String
  skipPaths : List String

/-- DefaultJWTOptions of middleware/jwt.go. -/
def DefaultJWTOptions : JWTOptions :=
  { tokenMarker := "Bearer"
    skipPaths := ["/api/v1/auth/login", "/api/v1/auth/register"] }

/-- The JWT middleware of middleware/jwt.go.  Paths matching a skip entry
by strings.HasPrefix bypass it; a missing Authorization header is a 401
with the Unauthorized message; a header without the marker is a 401 with
the Invalid token message; otherwise the token is parsed and an error is
mapped through the custom errorsIs to a 401 body, while success injects
the claims into the request context and forwards. -/
def JWTMiddleware (cfg : JWTConfig) (opts : JWTOptions) : Middleware :=
  fun next r s =>
    if opts.skipPaths.any (fun p => goHasPrefix r.path p) then next r s
    else
      match r.authHeader with
      | .missing => httpError s 401 "Unauthorized"
      | .noMarker _ => httpError s 401 "Invalid token"
      | .withMarker w =>
        match ParseToken cfg w r.now with
        | .error e =>
          if errorsIs e (.appSentinel .tokenExpired) then
            httpError s 401 "Token expired"
          else if errorsIs e (.appSentinel .invalidToken) then
            httpError s 401 "Invalid token"
          else
            httpError s 401 "Unauthorized"
        | .ok claims => next { r with ctxClaims := some claims } s

/-- Index of the first occurrence of a character, as strings.Index on a
single-character separator: the byte offsets coincide with character
offsets on the ASCII header values involved. -/
def goIndexOf (c : Char) : List Char → Option Nat
  | [] => none
  | x :: xs => if x = c then some 0 else (goIndexOf c xs).map (· + 1)

/-- Index of the last occurrence of a character, as strings.LastIndex on a
single-character separator. -/
def goLastIndexOf (c : Char) : List Char → Option Nat
  | [] => none
  | x :: xs =>
    match goLastIndexOf c xs with
    | some i => some (i + 1)
    | none => if x = c then some 0 else none

/-- The default GetIPKey of DefaultRateLimitOptions in the rate limit
middleware: X-Real-IP when non-empty; else the part of X-Forwarded-For
before its first comma (the whole header when it has no comma); else
RemoteAddr cut at its last colon (whole when it has none). -/
def defaultGetIPKey (r : Request) : String :=
  if r.xRealIP ≠ "" then r.xRealIP
  else if r.xForwardedFor ≠ "" then
    match goIndexOf ',' r.xForwardedFor.toList with
    | none => r.xForwardedFor
    | some i => String.mk (r.xForwardedFor.toList.take i)
  else
    match goLastIndexOf ':' r.remoteAddr.toList with
    | none => r.remoteAddr
    | some i => String.mk (r.remoteAddr.toList.take i)

/-- RateLimitOptions of the rate limit middleware: skip paths and the
pluggable client-key function. -/
structure RateLimitOptions where
  skipPaths : List String
  getIPKey : Request → String

/-- DefaultRateLimitOptions of the rate limit middleware. -/
def DefaultRateLimitOptions : RateLimitOptions :=
  { skipPaths := ["/health", "/metrics"], getIPKey := defaultGetIPKey }

/-- The RateLimit middleware.  Paths matching a skip entry by
strings.HasPrefix are forwarded untouched; otherwise the client key is
derived, the bucket for it is fetched or lazily created, and the request
is forwarded on admission or answered 429 on rejection. -/
def RateLimitMiddleware (rl : IPRateLimiter) (opts : RateLimitOptions) : Middleware :=
  fun next r s =>
    if opts.skipPaths.any (fun p => goHasPrefix r.path p) then next r s
    else
      let key := opts.getIPKey r
      let res := getLimiterAllow rl key (r.now : ℚ) s.registry
      if res.1 then next r { s with registry := res.2 }
      else httpError { s with registry := res.2 } 429 "Too many requests"

/-- The Recovery middleware: it only changes behavior when an inner stage
panics, an effect the model does not represent, so it forwards. -/
def RecoveryMiddleware : Middleware := fun next r s => next r s

/-- The Logger middleware: logging is outside the modelled state, so it
forwards. -/
def LoggerMiddleware : Middleware := fun next r s => next r s

/-- The RequestID middleware: it sets a response header and a context
value that are outside the modelled state, then forwards. -/
def RequestIDMiddleware : Middleware := fun next r s => next r s

/-- Modelled from the spec: the CORS middleware named in App.initRoutes
has no source under src; per the pipeline contract of the spec a
middleware propagates the unmodified request downstream unless it
short-circuits, so it is modelled as forwarding. -/
def CORSMiddleware : Middleware := fun next r s => next r s

/-- The protected chain built in App.initRoutes: Recovery, Logger,
RequestID, CORS, JWT with the default options, RateLimit with the default
options. -/
def protectedChain (cfg : JWTConfig) (rl : IPRateLimiter) : Middleware :=
  Chain [RecoveryMiddleware, LoggerMiddleware, RequestIDMiddleware,
    CORSMiddleware, JWTMiddleware cfg DefaultJWTOptions,
    RateLimitMiddleware rl DefaultRateLimitOptions]

/-- A concrete signing configuration for witnesses and counterexamples:
HS256 over the key secret, with a 10 second validity window. -/
def testCfg : JWTConfig :=
  { signingKey := "secret", expirationTime := 10
    signingMethod := "HS256", tokenMarker := "Bearer" }

/-- A token validly issued under testCfg at instant 0; its expiry is 10,
so it is expired at every instant from 10 on. -/
def expiredTok : SignedToken := GenerateToken testCfg 1 "alice" "admin" 0

/-- C1: the claim says RefreshToken succeeds on a token that fails
verification only because it is expired, returning a token with a strictly
later expiry.  The code does the opposite: the jwt library wraps its
expired sentinel in a fresh error, the custom errorsIs of the errors
package cannot see through that wrapper, so ParseToken classifies the
expired token as ErrInvalidToken and RefreshToken's expired-only gate
rejects the refresh.  At the failing input (expiredTok at instant 20) the
library failure is exactly the expired check, yet RefreshToken returns the
wrapped invalid-token error instead of a fresh token.  Had the gate
matched, the nil claims pointer returned by ParseToken would be
dereferenced (the nilPanic outcome), so no input can refresh. -/
theorem refreshToken_expired_rejected :
    libParseToken testCfg (.wellFormed expiredTok) 20 =
      .error (.invalidClaims [.tokenExpired])
    ∧ ParseToken testCfg (.wellFormed expiredTok) 20 =
      .error (.appSentinel .invalidToken)
    ∧ RefreshToken testCfg (.wellFormed expiredTok) 20 =
      .err (.fmtWrapped "failed to parse token for refresh"
        (.appSentinel .invalidToken)) := by
  refine ⟨rfl, rfl, rfl⟩

/-- C2: verifying a token produced by GenerateToken at an instant strictly
between NotBefore and ExpiresAt succeeds and returns exactly the issued
claims (UserID, Username, Role and the three time claims). -/
theorem verify_issue_roundtrip (cfg : JWTConfig) (uid : Nat)
    (uname urole : String) (t0 t1 : Int)
    (h1 : t0 < t1) (h2 : t1 < t0 + cfg.expirationTime) :
    ParseToken cfg (.wellFormed (GenerateToken cfg uid uname urole t0)) t1 =
      .ok { userID := uid, username := uname, role := urole
            expiresAt := t0 + cfg.expirationTime
            issuedAt := t0, notBefore := t0 } := by
  have h3 : t0 ≤ t1 := le_of_lt h1
  simp [ParseToken, libParseToken, parseWithClaims, GenerateToken, signWith,
    h2, h3]

/-- Witness for C2 at a concrete input: issue at 0 under testCfg and
verify at 5, strictly inside the validity window (0, 10). -/
theorem verify_issue_roundtrip_witness :
    (0 : Int) < 5 ∧ (5 : Int) < 0 + testCfg.expirationTime ∧
      ParseToken testCfg (.wellFormed (GenerateToken testCfg 2 "bob" "user" 0)) 5 =
        .ok { userID := 2, username := "bob", role := "user"
              expiresAt := 0 + testCfg.expirationTime
              issuedAt := 0, notBefore := 0 } :=
  ⟨by decide, by decide,
    verify_issue_roundtrip testCfg 2 "bob" "user" 0 5 (by decide) (by decide)⟩

/-- A token issued under an HS384 configuration, against the HS256 testCfg
verifier: its header algorithm differs from the configured one. -/
def otherAlgTok : SignedToken :=
  GenerateToken { testCfg with signingMethod := "HS384" } 1 "alice" "admin" 0

/-- C3 counterexample: the claim says the algorithm-mismatch failure is
the InvalidSignature error.  At this concrete input the keyfunc does
return errors.ErrInvalidSignature, but the library wraps it and the
custom errorsIs cannot see through the wrapper, so the switch default
returns errors.ErrInvalidToken, a different error value. -/
theorem parseToken_alg_mismatch_cex :
    otherAlgTok.alg ≠ testCfg.signingMethod
    ∧ ParseToken testCfg (.wellFormed otherAlgTok) 5 =
        .error (.appSentinel .invalidToken)
    ∧ (GoError.appSentinel .invalidToken) ≠ (GoError.appSentinel .invalidSignature) := by
  refine ⟨by decide, rfl, by decide⟩

/-- C3 amended: a token whose header declares an algorithm different from
the configured SigningMethod always fails ParseToken — it is never
accepted and never yields claims — but the surfaced error is
errors.ErrInvalidToken, not errors.ErrInvalidSignature. -/
theorem parseToken_alg_mismatch_rejected (cfg : JWTConfig) (t : SignedToken)
    (now : Int) (h : t.alg ≠ cfg.signingMethod) :
    ParseToken cfg (.wellFormed t) now = .error (.appSentinel .invalidToken) := by
  simp [ParseToken, libParseToken, parseWithClaims, h, classifyParseErr, errorsIs]

/-- Witness for the amended C3 at the concrete mismatching token. -/
theorem parseToken_alg_mismatch_rejected_witness :
    otherAlgTok.alg ≠ testCfg.signingMethod ∧
      ParseToken testCfg (.wellFormed otherAlgTok) 7 =
        .error (.appSentinel .invalidToken) :=
  ⟨by decide, parseToken_alg_mismatch_rejected testCfg otherAlgTok 7 (by decide)⟩

/-- C4 counterexample: the claim says a zero or negative refill rate or
capacity is rejected at registry construction.  Neither constructor has an
error path: NewTokenBucket with rate 0 returns a fully initialized bucket
whose first Allow call even admits, and NewIPRateLimiter with rate and
capacity 0 returns a registry that will lazily hand out such buckets. -/
theorem rateLimiter_no_construction_validation_cex :
    NewTokenBucket 0 5 0 =
      { rate := 0, capacity := 5, tokens := 5, lastUpdate := 0 }
    ∧ ((NewTokenBucket 0 5 0).Allow 0).1 = true
    ∧ NewIPRateLimiter 0 0 = { rate := 0, capacity := 0 } := by
  refine ⟨rfl, ?_, rfl⟩
  norm_num [NewTokenBucket, TokenBucket.Allow]

/-- C4 amended: construction performs no validation at all.  A
non-positive refill rate is accepted: the bucket comes back initialized
with tokens = capacity and lastUpdate = now, the limiter records the
parameters as given, and whenever the capacity is at least 1 the zero or
negative rate bucket is immediately usable (its first Allow admits). -/
theorem rateLimiter_construction_accepts_nonpositive (rate cap now : ℚ)
    (hr : rate ≤ 0) (hc : 1 ≤ cap) :
    NewTokenBucket rate cap now =
      { rate := rate, capacity := cap, tokens := cap, lastUpdate := now }
    ∧ NewIPRateLimiter rate cap = { rate := rate, capacity := cap }
    ∧ ((NewTokenBucket rate cap now).Allow now).1 = true := by
  refine ⟨rfl, rfl, ?_⟩
  simp only [NewTokenBucket, TokenBucket.Allow]
  have h0 : cap + (now - now) * rate = cap := by ring
  rw [h0, min_self]
  simp [hc]

/-- Witness for the amended C4 at rate -1, capacity 5, instant 0. -/
theorem rateLimiter_construction_accepts_nonpositive_witness :
    (-1 : ℚ) ≤ 0 ∧ (1 : ℚ) ≤ 5 ∧
      ((NewTokenBucket (-1) 5 0).Allow 0).1 = true :=
  ⟨by norm_num, by norm_num,
    (rateLimiter_construction_accepts_nonpositive (-1) 5 0 (by norm_num)
      (by norm_num)).2.2⟩

/-- C5: the concrete admission trace of the spec for capacity 2 and
rate 1 — two instantaneous admissions, an instantaneous rejection with the
balance pinned at 0, and one more admission after one second — together
with the general step law: Allow refills to the spec formula
min(capacity, tokens + elapsed * rate), admits exactly when that refilled
balance is at least 1, and decrements by 1 on admission. -/
theorem tokenBucket_scenario_and_step :
    ((NewTokenBucket 1 2 0).Allow 0 =
        (true, { rate := 1, capacity := 2, tokens := 1, lastUpdate := 0 })
      ∧ ({ rate := 1, capacity := 2, tokens := 1, lastUpdate := 0 } : TokenBucket).Allow 0 =
        (true, { rate := 1, capacity := 2, tokens := 0, lastUpdate := 0 })
      ∧ ({ rate := 1, capacity := 2, tokens := 0, lastUpdate := 0 } : TokenBucket).Allow 0 =
        (false, { rate := 1, capacity := 2, tokens := 0, lastUpdate := 0 })
      ∧ ({ rate := 1, capacity := 2, tokens := 0, lastUpdate := 0 } : TokenBucket).Allow 1 =
        (true, { rate := 1, capacity := 2, tokens := 0, lastUpdate := 1 }))
    ∧ ∀ (tb : TokenBucket) (now : ℚ),
        tb.Allow now =
          (decide (1 ≤ specRefill tb now),
            { tb with
              tokens :=
                if 1 ≤ specRefill tb now then specRefill tb now - 1
                else specRefill tb now
              lastUpdate := now }) := by
  constructor
  · refine ⟨?_, ?_, ?_, ?_⟩ <;>
      norm_num [NewTokenBucket, TokenBucket.Allow, min_def]
  · intro tb now
    simp only [TokenBucket.Allow, specRefill]
    by_cases h : 1 ≤ min tb.capacity (tb.tokens + (now - tb.lastUpdate) * tb.rate) <;>
      simp [h]

/-- C6: for a bucket built by NewTokenBucket with non-negative capacity
the balance invariant 0 ≤ tokens ≤ capacity holds initially, and Allow
preserves it on both branches whenever the rate is non-negative, the
invariant held before, and the elapsed time is non-negative. -/
theorem tokenBucket_invariant :
    (∀ rate cap now : ℚ, 0 ≤ cap →
        0 ≤ (NewTokenBucket rate cap now).tokens ∧
          (NewTokenBucket rate cap now).tokens ≤ (NewTokenBucket rate cap now).capacity)
    ∧ ∀ (tb : TokenBucket) (now : ℚ), 0 ≤ tb.rate → 0 ≤ tb.tokens →
        tb.tokens ≤ tb.capacity → tb.lastUpdate ≤ now →
        0 ≤ ((tb.Allow now).2).tokens ∧
          ((tb.Allow now).2).tokens ≤ ((tb.Allow now).2).capacity := by
  constructor
  · intro rate cap now hcap
    exact ⟨hcap, le_refl _⟩
  · intro tb now hrate htok hcap htime
    have he : 0 ≤ (now - tb.lastUpdate) * tb.rate :=
      mul_nonneg (sub_nonneg.2 htime) hrate
    have hub : min tb.capacity (tb.tokens + (now - tb.lastUpdate) * tb.rate) ≤ tb.capacity :=
      min_le_left _ _
    have hlb : 0 ≤ min tb.capacity (tb.tokens + (now - tb.lastUpdate) * tb.rate) :=
      le_min (le_trans htok hcap) (add_nonneg htok he)
    simp only [TokenBucket.Allow]
    by_cases h : 1 ≤ min tb.capacity (tb.tokens + (now - tb.lastUpdate) * tb.rate)
    · simp only [h, if_true]
      constructor
      · linarith
      · have := sub_le_self
          (min tb.capacity (tb.tokens + (now - tb.lastUpdate) * tb.rate))
          (zero_le_one (α := ℚ))
        exact le_trans this hub
    · simp only [h, if_false]
      exact ⟨hlb, hub⟩

/-- Witness for C6: the initial invariant at rate 1, capacity 2, and the
preservation step on the full bucket one second later. -/
theorem tokenBucket_invariant_witness :
    ((0 : ℚ) ≤ 2 ∧
      0 ≤ (NewTokenBucket 1 2 0).tokens ∧
        (NewTokenBucket 1 2 0).tokens ≤ (NewTokenBucket 1 2 0).capacity)
    ∧ ((0 : ℚ) ≤ 1 ∧ (0 : ℚ) ≤ 2 ∧ (2 : ℚ) ≤ 2 ∧ (0 : ℚ) ≤ 1 ∧
      0 ≤ ((({ rate := 1, capacity := 2, tokens := 2, lastUpdate := 0 } : TokenBucket).Allow 1).2).tokens ∧
        ((({ rate := 1, capacity := 2, tokens := 2, lastUpdate := 0 } : TokenBucket).Allow 1).2).tokens ≤
          ((({ rate := 1, capacity := 2, tokens := 2, lastUpdate := 0 } : TokenBucket).Allow 1).2).capacity) :=
  ⟨⟨by norm_num, by
      have h := tokenBucket_invariant.1 1 2 0 (by norm_num)
      exact h⟩,
    by norm_num, by norm_num, by norm_num, by norm_num,
    by
      have h := tokenBucket_invariant.2
        { rate := 1, capacity := 2, tokens := 2, lastUpdate := 0 } 1
        (by norm_num) (by norm_num) (by norm_num) (by norm_num)
      exact h.1,
    by
      have h := tokenBucket_invariant.2
        { rate := 1, capacity := 2, tokens := 2, lastUpdate := 0 } 1
        (by norm_num) (by norm_num) (by norm_num) (by norm_num)
      exact h.2⟩

/-- Spec-side reading of the X-Forwarded-For rule: the first
comma-separated entry is the longest comma-free initial segment. -/
def firstCommaEntry (s : String) : String :=
  String.mk (s.toList.takeWhile (fun c => c ≠ ','))

/-- Membership of a character in a list, as a boolean. -/
def hasChar (c : Char) : List Char → Bool
  | [] => false
  | x :: xs => x = c || hasChar c xs

/-- Spec-side cut at the last occurrence of a character: keep everything
strictly before the last occurrence; keep the whole list when the
character does not occur. -/
def cutAtLast (c : Char) : List Char → List Char
  | [] => []
  | x :: xs =>
    if x = c ∧ hasChar c xs = false then [] else x :: cutAtLast c xs

/-- Spec-side reading of the RemoteAddr rule: the substring before the
last colon, or the whole address when it contains no colon. -/
def stripPort (s : String) : String :=
  if hasChar ':' s.toList then String.mk (cutAtLast ':' s.toList) else s

/-- When a character does not occur, the longest initial segment free of
it is the whole list. -/
theorem goIndexOf_none_takeWhile (c : Char) (l : List Char)
    (h : goIndexOf c l = none) : l.takeWhile (fun x => x ≠ c) = l := by
  induction l with
  | nil => rfl
  | cons x xs ih =>
    rw [goIndexOf] at h
    by_cases hx : x = c
    · rw [if_pos hx] at h
      simp at h
    · rw [if_neg hx] at h
      cases hxs : goIndexOf c xs with
      | some j => rw [hxs] at h; simp at h
      | none =>
        rw [List.takeWhile_cons_of_pos (by simpa using hx), ih hxs]

/-- Taking up to the first occurrence of a character is taking the
longest initial segment free of it. -/
theorem goIndexOf_some_takeWhile (c : Char) (l : List Char) (i : Nat)
    (h : goIndexOf c l = some i) : l.takeWhile (fun x => x ≠ c) = l.take i := by
  induction l generalizing i with
  | nil => simp [goIndexOf] at h
  | cons x xs ih =>
    rw [goIndexOf] at h
    by_cases hx : x = c
    · rw [if_pos hx] at h
      obtain rfl : i = 0 := by simpa using h.symm
      simp [List.takeWhile_cons, hx]
    · rw [if_neg hx] at h
      cases hxs : goIndexOf c xs with
      | none => rw [hxs] at h; simp at h
      | some j =>
        rw [hxs] at h
        obtain rfl : i = j + 1 := by simpa using h.symm
        rw [List.takeWhile_cons_of_pos (by simpa using hx), ih j hxs,
          List.take_succ_cons]

/-- goLastIndexOf finds nothing exactly on lists free of the character. -/
theorem goLastIndexOf_none_hasChar (c : Char) (l : List Char)
    (h : goLastIndexOf c l = none) : hasChar c l = false := by
  induction l with
  | nil => rfl
  | cons x xs ih =>
    rw [goLastIndexOf] at h
    cases hxs : goLastIndexOf c xs with
    | some i => rw [hxs] at h; simp at h
    | none =>
      rw [hxs] at h
      by_cases hx : x = c
      · rw [if_pos hx] at h; simp at h
      · simp [hasChar, hx, ih hxs]

/-- goLastIndexOf finds an index exactly on lists containing the
character. -/
theorem goLastIndexOf_some_hasChar (c : Char) (l : List Char) (i : Nat)
    (h : goLastIndexOf c l = some i) : hasChar c l = true := by
  induction l generalizing i with
  | nil => simp [goLastIndexOf] at h
  | cons x xs ih =>
    rw [goLastIndexOf] at h
    cases hxs : goLastIndexOf c xs with
    | some j => simp [hasChar, ih j hxs]
    | none =>
      rw [hxs] at h
      by_cases hx : x = c
      · simp [hasChar, hx]
      · rw [if_neg hx] at h; simp at h

/-- Taking up to the last occurrence of a character is the spec-side cut
before the last occurrence. -/
theorem goLastIndexOf_some_cutAtLast (c : Char) (l : List Char) (i : Nat)
    (h : goLastIndexOf c l = some i) : l.take i = cutAtLast c l := by
  induction l generalizing i with
  | nil => simp [goLastIndexOf] at h
  | cons x xs ih =>
    rw [goLastIndexOf] at h
    cases hxs : goLastIndexOf c xs with
    | some j =>
      rw [hxs] at h
      obtain rfl : i = j + 1 := by simpa using h.symm
      have hcon := goLastIndexOf_some_hasChar c xs j hxs
      rw [cutAtLast]
      rw [if_neg (by simp [hcon])]
      simp [List.take_succ_cons, ih j hxs]
    | none =>
      rw [hxs] at h
      by_cases hx : x = c
      · rw [if_pos hx] at h
        obtain rfl : i = 0 := by simpa using h.symm
        rw [cutAtLast]
        rw [if_pos ⟨hx, goLastIndexOf_none_hasChar c xs hxs⟩]
        simp
      · rw [if_neg hx] at h; simp at h

/-- C9: the default client-key derivation returns X-Real-IP when
non-empty; otherwise, when X-Forwarded-For is non-empty, its first
comma-separated entry; otherwise RemoteAddr with the part from the last
colon on removed, or whole when it has no colon. -/
theorem defaultGetIPKey_spec (r : Request) :
    defaultGetIPKey r =
      if r.xRealIP ≠ "" then r.xRealIP
      else if r.xForwardedFor ≠ "" then firstCommaEntry r.xForwardedFor
      else stripPort r.remoteAddr := by
  unfold defaultGetIPKey firstCommaEntry stripPort
  by_cases h1 : r.xRealIP = ""
  · by_cases h2 : r.xForwardedFor = ""
    · cases h : goLastIndexOf ':' r.remoteAddr.toList with
      | none =>
        have hc := goLastIndexOf_none_hasChar ':' r.remoteAddr.toList h
        simp only [String.toList] at hc
        simp [h1, h2, h, hc]
      | some i =>
        have hc := goLastIndexOf_some_hasChar ':' r.remoteAddr.toList i h
        have hcut := goLastIndexOf_some_cutAtLast ':' r.remoteAddr.toList i h
        simp only [String.toList] at hc hcut
        simp [h1, h2, h, hc, hcut]
    · cases h : goIndexOf ',' r.xForwardedFor.toList with
      | none =>
        have hw := goIndexOf_none_takeWhile ',' r.xForwardedFor.toList h
        simp only [ne_eq, decide_not, String.toList] at hw
        simp [h1, h2, h, hw]
      | some i =>
        have hw := goIndexOf_some_takeWhile ',' r.xForwardedFor.toList i h
        simp only [ne_eq, decide_not, String.toList] at hw
        simp [h1, h2, h, hw]
  · simp [h1]

/-- C7: on a protected path (no skip entry matches) with no Authorization
header, the protected chain of App.initRoutes short-circuits at the
authentication stage: the only effect is one 401 write with the
Unauthorized body; the registry is unchanged, and the result does not
depend on the rate limiter or on the terminal handler, so neither runs
and no bucket is created.  The CORS stage is spec-modelled as forwarding
(its source is absent); Recovery, Logger and RequestID forward here. -/
theorem protectedChain_missing_auth_401 (cfg : JWTConfig) (rl : IPRateLimiter)
    (terminal : HandlerFunc) (r : Request) (s : MWState)
    (hpath : (DefaultJWTOptions.skipPaths.any (fun p => goHasPrefix r.path p)) = false)
    (hauth : r.authHeader = .missing) :
    protectedChain cfg rl terminal r s =
      { s with writes := s.writes ++ [(401, "Unauthorized")] } := by
  simp [protectedChain, Chain, RecoveryMiddleware, LoggerMiddleware,
    RequestIDMiddleware, CORSMiddleware, JWTMiddleware, hpath, hauth, httpError]

/-- Witness for C7: a GET of the protected users collection with no
Authorization header, from a fresh state with an empty registry. -/
theorem protectedChain_missing_auth_401_witness :
    ((DefaultJWTOptions.skipPaths.any
        (fun p => goHasPrefix "/api/v1/users" p)) = false)
    ∧ protectedChain testCfg (NewIPRateLimiter 5 10) (fun _ s => s)
        { path := "/api/v1/users", authHeader := .missing, xRealIP := ""
          xForwardedFor := "", remoteAddr := "10.0.0.1:8080"
          now := 0, ctxClaims := none }
        { writes := [], registry := [] } =
      { writes := [(401, "Unauthorized")], registry := [] } :=
  ⟨by decide,
    protectedChain_missing_auth_401 testCfg (NewIPRateLimiter 5 10)
      (fun _ s => s)
      { path := "/api/v1/users", authHeader := .missing, xRealIP := ""
        xForwardedFor := "", remoteAddr := "10.0.0.1:8080"
        now := 0, ctxClaims := none }
      { writes := [], registry := [] } (by decide) rfl⟩

/-- C8: the rate limit middleware forwards a request whose path matches a
skip entry to the next handler with the state untouched — the result is
literally next applied to the unchanged request and state, so no client
key is derived, no bucket is created, and no bucket changes — and the
default skip list is exactly /health and /metrics. -/
theorem rateLimit_skip_bypass :
    DefaultRateLimitOptions.skipPaths = ["/health", "/metrics"]
    ∧ ∀ (rl : IPRateLimiter) (opts : RateLimitOptions) (next : HandlerFunc)
        (r : Request) (s : MWState),
        (opts.skipPaths.any (fun p => goHasPrefix r.path p)) = true →
        RateLimitMiddleware rl opts next r s = next r s := by
  refine ⟨rfl, ?_⟩
  intro rl opts next r s h
  simp [RateLimitMiddleware, h]

/-- Witness for C8: a health probe under the default options, with a
non-empty registry to show it is passed through unchanged. -/
theorem rateLimit_skip_bypass_witness :
    ((DefaultRateLimitOptions.skipPaths.any
        (fun p => goHasPrefix "/health" p)) = true)
    ∧ RateLimitMiddleware (NewIPRateLimiter 5 10) DefaultRateLimitOptions
        (fun _ s => s)
        { path := "/health", authHeader := .missing, xRealIP := ""
          xForwardedFor := "", remoteAddr := "10.0.0.1:8080"
          now := 3, ctxClaims := none }
        { writes := [], registry := [("10.0.0.1", NewTokenBucket 5 10 0)] } =
      { writes := [], registry := [("10.0.0.1", NewTokenBucket 5 10 0)] } :=
  ⟨by decide,
    rateLimit_skip_bypass.2 (NewIPRateLimiter 5 10) DefaultRateLimitOptions
      (fun _ s => s)
      { path := "/health", authHeader := .missing, xRealIP := ""
        xForwardedFor := "", remoteAddr := "10.0.0.1:8080"
        now := 3, ctxClaims := none }
      { writes := [], registry := [("10.0.0.1", NewTokenBucket 5 10 0)] }
      (by decide)⟩

/-- C10: in both the authentication and the rate limit middleware, a path
that merely begins with a skip entry (strings.HasPrefix, not equality)
bypasses the middleware: the handler chain continues with the unchanged
request and state.  Concretely, /api/v1/auth/login/step2 matches the
login skip entry and /healthz matches the health skip entry although
neither equals its entry. -/
theorem skipPaths_match_by_string_prefixes :
    (∀ (cfg : JWTConfig) (opts : JWTOptions) (next : HandlerFunc)
        (r : Request) (s : MWState),
        (opts.skipPaths.any (fun p => goHasPrefix r.path p)) = true →
        JWTMiddleware cfg opts next r s = next r s)
    ∧ (∀ (rl : IPRateLimiter) (opts : RateLimitOptions) (next : HandlerFunc)
        (r : Request) (s : MWState),
        (opts.skipPaths.any (fun p => goHasPrefix r.path p)) = true →
        RateLimitMiddleware rl opts next r s = next r s)
    ∧ goHasPrefix "/api/v1/auth/login/step2" "/api/v1/auth/login" = true
    ∧ "/api/v1/auth/login/step2" ≠ "/api/v1/auth/login"
    ∧ goHasPrefix "/healthz" "/health" = true
    ∧ "/healthz" ≠ "/health" := by
  refine ⟨?_, ?_, by decide, by decide, by decide, by decide⟩
  · intro cfg opts next r s h
    simp [JWTMiddleware, h]
  · intro rl opts next r s h
    simp [RateLimitMiddleware, h]

/-- Witness for C10: the authentication middleware forwards a request for
a strict extension of the login skip entry. -/
theorem skipPaths_match_by_string_prefixes_witness :
    ((DefaultJWTOptions.skipPaths.any
        (fun p => goHasPrefix "/api/v1/auth/login/step2" p)) = true)
    ∧ JWTMiddleware testCfg DefaultJWTOptions (fun _ s => s)
        { path := "/api/v1/auth/login/step2", authHeader := .missing
          xRealIP := "", xForwardedFor := "", remoteAddr := "10.0.0.1:8080"
          now := 0, ctxClaims := none }
        { writes := [], registry := [] } =
      { writes := [], registry := [] } :=
  ⟨by decide,
    skipPaths_match_by_string_prefixes.1 testCfg DefaultJWTOptions
      (fun _ s => s)
      { path := "/api/v1/auth/login/step2", authHeader := .missing
        xRealIP := "", xForwardedFor := "", remoteAddr := "10.0.0.1:8080"
        now := 0, ctxClaims := none }
      { writes := [], registry := [] } (by decide)⟩
